import Mathlib

/-!
Verification of the Perspectivology Engine backend (src/backend/server.js).

The development shallowly embeds the pure logic of the server:
* a JSON-value model (`JValue`) with the JS object-literal spread
  semantics used by the `{phase, ...parsed, ...}` response construction;
* the CSV row parsing of `fetchExpertDatabase`, including JS `parseInt`
  (decimal and hexadecimal `0x` prefixes, a leading sign, the longest
  digit prefix, `NaN` when there is no digit) and the `|| 0` fallback;
* the cache logic of `fetchExpertDatabase` as a function of the explicit
  cache state, the current time, and the HTTP response (an
  `Option JValue`: `none` models a transport error, a non-string value
  models a body on which `.split` would throw — both land in the same
  `catch` block);
* the three phase request handlers, parameterised by the outcome of the
  model gateway call (an `Except String JObj`, where `error` models a
  thrown transport or JSON-parse error, caught by the handler), each
  recording how many remote calls the execution performs.
-/

set_option autoImplicit false

namespace Perspectivology

/-- JSON values, as produced by `JSON.parse` on the text returned by the
model gateway. Numbers are modelled as integers: every numeric literal in
the server is an integer. -/
inductive JValue where
  | null
  | bool (b : Bool)
  | num (n : Int)
  | str (s : String)
  | arr (xs : List JValue)
  | obj (fields : List (String × JValue))

/-- A JS object: an ordered association list of fields. Keys are unique in
any object built by the object-literal semantics below. -/
abbrev JObj := List (String × JValue)

/-- Reading a property of a JS object: the first (hence, for well-formed
objects, unique) field with the given key. -/
def objGet (o : JObj) (k : String) : Option JValue :=
  (o.find? (fun p => p.1 == k)).map (fun p => p.2)

/-- Replace the value of every field carrying key `k`, in place. -/
def replaceKey : JObj → String → JValue → JObj
  | [], _, _ => []
  | p :: rest, k, v => (if p.1 == k then (k, v) else p) :: replaceKey rest k v

/-- JS property assignment inside an object literal: overwrite the field
in place when the key is already present, append it otherwise. -/
def setField (o : JObj) (k : String) (v : JValue) : JObj :=
  if o.any (fun p => p.1 == k) then replaceKey o k v else o ++ [(k, v)]

/-- JS object spread, continuing a literal that already built `base`:
assign each field of `src` in order. -/
def spreadObj (base : JObj) (src : JObj) : JObj :=
  src.foldl (fun acc p => setField acc p.1 p.2) base

/-- The value the spread of `src` contributes for key `k`: the last
occurrence of `k` in `src`, if any. -/
def lastVal (src : JObj) (k : String) : Option JValue :=
  (src.reverse.find? (fun p => p.1 == k)).map (fun p => p.2)

/-- First-defined choice on optional JSON values. -/
def orDefault (a b : Option JValue) : Option JValue :=
  match a with
  | some v => some v
  | none => b

/-- Success response body of POST /api/phase1 (server.js 127-130):
`{ phase: 1, ...parsed }`. -/
def phase1Response (parsed : JObj) : JObj :=
  spreadObj [("phase", JValue.num 1)] parsed

/-- Success response body of POST /api/phase2 (server.js 182-187):
`{ phase: 2, ...parsed, swapAvailable: true, swapLimit: 3 }`. -/
def phase2Response (parsed : JObj) : JObj :=
  setField
    (setField (spreadObj [("phase", JValue.num 2)] parsed)
      "swapAvailable" (JValue.bool true))
    "swapLimit" (JValue.num 3)

/-- Success response body of POST /api/phase3 (server.js 221-225):
`{ phase: 3, ...parsed, totalQuestions: 5 }`. -/
def phase3Response (parsed : JObj) : JObj :=
  setField (spreadObj [("phase", JValue.num 3)] parsed)
    "totalQuestions" (JValue.num 5)

/-- One expert record, with the exact field names of the object literal
built in `fetchExpertDatabase` (server.js 43-54). -/
structure Expert where
  firstName : String
  lastName : String
  years : String
  field1 : String
  field2 : String
  descriptor : String
  field3 : String
  status : Int
  gender : String
  geography : String
  recognizable : String
deriving DecidableEq, Repr

/-- Models JS String.prototype.split with a one-character separator (the
server only splits on '\n' and on ','): the empty string yields a single
empty piece and a trailing separator yields a trailing empty piece,
exactly as `List.splitOn` behaves on the character list. -/
def jsSplit (s : String) (sep : Char) : List String :=
  (List.splitOn sep s.toList).map (fun cs => String.mk cs)

/-- Models JS String.prototype.trim: drop whitespace from both ends
(whitespace per `Char.isWhitespace`; JS additionally trims some exotic
Unicode spaces, on which nothing here depends). -/
def jsTrim (s : String) : String :=
  String.mk
    (((s.toList.dropWhile Char.isWhitespace).reverse.dropWhile
      Char.isWhitespace).reverse)

/-- Value of a list of decimal digit characters. -/
def digitsToNat (cs : List Char) : Nat :=
  cs.foldl (fun a c => a * 10 + (c.toNat - 48)) 0

/-- Hexadecimal digit predicate, for the JS `parseInt` base-16 form. -/
def isHexDigitChar (c : Char) : Bool :=
  c.isDigit || ('a' ≤ c && c ≤ 'f') || ('A' ≤ c && c ≤ 'F')

/-- Value of one hexadecimal digit character. -/
def hexDigitToNat (c : Char) : Nat :=
  if c.isDigit then c.toNat - 48
  else if 'a' ≤ c && c ≤ 'f' then c.toNat - 87
  else c.toNat - 55

/-- Value of a list of hexadecimal digit characters. -/
def hexToNat (cs : List Char) : Nat :=
  cs.foldl (fun a c => a * 16 + hexDigitToNat c) 0

/-- The unsigned part of JS `parseInt` with no explicit radix: a leading
`0x` or `0X` selects base 16, otherwise the longest leading run of decimal
digits is taken; no digit at all gives `NaN` (modelled as `none`). -/
def jsParseIntCore (cs : List Char) : Option Nat :=
  match cs with
  | '0' :: 'x' :: rest =>
    let ds := rest.takeWhile isHexDigitChar
    if ds.isEmpty then none else some (hexToNat ds)
  | '0' :: 'X' :: rest =>
    let ds := rest.takeWhile isHexDigitChar
    if ds.isEmpty then none else some (hexToNat ds)
  | _ =>
    let ds := cs.takeWhile Char.isDigit
    if ds.isEmpty then none else some (digitsToNat ds)

/-- Models JS `parseInt(s)`: skip leading whitespace, allow one sign, then
parse the longest valid digit prefix; `none` models `NaN`. -/
def jsParseInt (s : String) : Option Int :=
  match s.toList.dropWhile Char.isWhitespace with
  | '-' :: rest => (jsParseIntCore rest).map (fun n => -(n : Int))
  | '+' :: rest => (jsParseIntCore rest).map (fun n => (n : Int))
  | cs => (jsParseIntCore cs).map (fun n => (n : Int))

/-- Models `parseInt(values[7]) || 0` (server.js 51): an absent column or
a `NaN` parse falls back to `0`; a parsed `0` (or `-0`) is falsy and the
fallback maps it to `0` again, so `getD 0` is exact. -/
def statusOfCol (col : Option String) : Int :=
  match col with
  | none => 0
  | some s => (jsParseInt s).getD 0

/-- Models `values[i]?.trim() || d`: a missing column, or one whose
trimmed text is empty (falsy), yields the default `d`. -/
def colOr (values : List String) (i : Nat) (d : String) : String :=
  match values.get? i with
  | some s => if jsTrim s = "" then d else jsTrim s
  | none => d

/-- The expert object literal built for one CSV line (server.js 42-54):
`values = line.split(',')`, fixed column positions. -/
def parseLine (line : String) : Expert :=
  let values := jsSplit line ','
  { firstName := colOr values 1 ""
    lastName := colOr values 0 ""
    years := colOr values 2 ""
    field1 := colOr values 3 ""
    field2 := colOr values 4 ""
    descriptor := colOr values 5 ""
    field3 := colOr values 6 ""
    status := statusOfCol (values.get? 7)
    gender := colOr values 8 ""
    geography := colOr values 9 ""
    recognizable := colOr values 10 "No" }

/-- The retention test of server.js 56:
`if (expert.firstName && expert.status === 0)`. -/
def retained (e : Expert) : Prop :=
  e.firstName ≠ "" ∧ e.status = 0

instance (e : Expert) : Decidable (retained e) := by
  unfold retained; infer_instance

/-- The body of the CSV ingestion loop (server.js 39-59): skip blank
lines, parse the rest, push retained experts in order. -/
def ingestLine (db : List Expert) (line : String) : List Expert :=
  if jsTrim line = "" then db
  else
    let expert := parseLine line
    if retained expert then db ++ [expert] else db

/-- The directory rebuilt from a CSV body: line 0 is the header row, lines
1.. are data rows (server.js 34-59). -/
def parseCSV (data : String) : List Expert :=
  ((jsSplit data '\n').drop 1).foldl ingestLine []

/-- The cache staleness window, `5 * 60 * 1000` ms (server.js 19). -/
def CACHE_DURATION : Nat := 5 * 60 * 1000

/-- The module-level mutable state, `expertDatabase` and `lastFetchTime`
(server.js 17-18). Times are in milliseconds, as returned by Date.now. -/
structure CacheState where
  expertDatabase : List Expert
  lastFetchTime : Nat
deriving DecidableEq, Repr

/-- One execution of `fetchExpertDatabase`: the resulting state, the list
returned to the caller, and how many network fetches of the CSV URL were
attempted. -/
structure FetchOutcome where
  state : CacheState
  result : List Expert
  fetches : Nat
deriving DecidableEq, Repr

/-- Holds when the HTTP response makes the try block throw: `none` is a
transport error from the GET itself, and a non-string response body makes
`response.data.split` throw. Either lands in the catch block. -/
def isFetchFailure (resp : Option JValue) : Bool :=
  match resp with
  | some (JValue.str _) => false
  | _ => true

/-- The function `fetchExpertDatabase` (server.js 22-68) over the explicit
state, the current time, and the HTTP response. On a fresh non-empty cache
it returns immediately with no fetch; otherwise it attempts the fetch: on
success it replaces the cache wholesale and stamps `lastFetchTime`, and on
any failure the catch block returns the previous `expertDatabase` with the
state untouched. The JS subtraction `now - lastFetchTime` matches
truncated `Nat` subtraction here: for `now ≥ lastFetchTime` the two agree,
and for `now < lastFetchTime` both classify the cache as fresh. -/
def fetchExpertDatabase (st : CacheState) (now : Nat) (resp : Option JValue) :
    FetchOutcome :=
  if st.expertDatabase ≠ [] ∧ now - st.lastFetchTime < CACHE_DURATION then
    ⟨st, st.expertDatabase, 0⟩
  else
    match resp with
    | some (JValue.str data) =>
      let db := parseCSV data
      ⟨⟨db, now⟩, db, 1⟩
    | _ => ⟨st, st.expertDatabase, 1⟩

/-- Cache states the server can ever be in: the initial module state, and
every state left behind by a run of `fetchExpertDatabase` (the only code
that assigns the two module variables). -/
inductive Reachable : CacheState → Prop
  | init : Reachable ⟨[], 0⟩
  | step (st : CacheState) (now : Nat) (resp : Option JValue) :
      Reachable st → Reachable (fetchExpertDatabase st now resp).state

/-- Observable outcome of one phase request: HTTP status, JSON body, and
how often each remote dependency was invoked. `modelCalls` counts
attempts of `callClaude`, `dirReads` counts calls of
`fetchExpertDatabase`, `dirFetches` counts network fetches of the CSV URL
made inside those calls. -/
structure Outcome where
  status : Nat
  body : JObj
  modelCalls : Nat
  dirReads : Nat
  dirFetches : Nat

/-- JS truthiness of a request field holding a string: a missing field
(`none`) or the empty string is falsy. -/
def jsStrFalsy (c : Option String) : Bool :=
  match c with
  | none => true
  | some s => s = ""

/-- Handler of POST /api/phase1 (server.js 99-133), parameterised by the
combined result of `callClaude` and `JSON.parse`: `Except.error` means one
of the two threw, and the catch block turns it into a 500 carrying the
error message. -/
def phase1Handler (challenge : Option String)
    (model : Except String JObj) : Outcome :=
  if jsStrFalsy challenge then
    ⟨400, [("error", JValue.str "Challenge required")], 0, 0, 0⟩
  else
    match model with
    | Except.error msg => ⟨500, [("error", JValue.str msg)], 1, 0, 0⟩
    | Except.ok parsed => ⟨200, phase1Response parsed, 1, 0, 0⟩

/-- Handler of POST /api/phase2 (server.js 136-191): field validation,
then the directory read, then the gateway call. Returns the outcome
together with the cache state after the request. -/
def phase2Handler (challenge challengeType : Option String) (st : CacheState)
    (now : Nat) (resp : Option JValue) (model : Except String JObj) :
    Outcome × CacheState :=
  if jsStrFalsy challenge || jsStrFalsy challengeType then
    (⟨400, [("error", JValue.str "Challenge and challengeType required")],
      0, 0, 0⟩, st)
  else
    let f := fetchExpertDatabase st now resp
    match model with
    | Except.error msg =>
      (⟨500, [("error", JValue.str msg)], 1, 1, f.fetches⟩, f.state)
    | Except.ok parsed =>
      (⟨200, phase2Response parsed, 1, 1, f.fetches⟩, f.state)

/-- Models server.js 200: `team.map(e => e.name).join` with separator
comma-space, reading the name property of each member as a string. -/
def phase3TeamNames (team : List JObj) : String :=
  String.intercalate ", "
    (team.map (fun e =>
      match objGet e "name" with
      | some (JValue.str s) => s
      | _ => ""))

/-- Handler of POST /api/phase3 (server.js 194-230). The team field is
modelled as `Option (List JObj)`: `none` is a missing (falsy) field, and a
present array — empty or not — is truthy, exactly as `!team` treats it. -/
def phase3Handler (challenge : Option String) (team : Option (List JObj))
    (model : Except String JObj) : Outcome :=
  if jsStrFalsy challenge || team.isNone then
    ⟨400, [("error", JValue.str "Challenge and team required")], 0, 0, 0⟩
  else
    match model with
    | Except.error msg => ⟨500, [("error", JValue.str msg)], 1, 0, 0⟩
    | Except.ok parsed => ⟨200, phase3Response parsed, 1, 0, 0⟩

/-- The retained record of the worked example in the specification: CSV
row `Doe,Jane,10,Ethics,,Moral philosopher,,0,F,EU,Yes`. -/
def janeDoe : Expert :=
  { firstName := "Jane", lastName := "Doe", years := "10", field1 := "Ethics",
    field2 := "", descriptor := "Moral philosopher", field3 := "", status := 0,
    gender := "F", geography := "EU", recognizable := "Yes" }

/-- A concrete two-line CSV body: a header row and the worked example
row. -/
def csvEx : String :=
  "lastName,firstName\nDoe,Jane,10,Ethics,,Moral philosopher,,0,F,EU,Yes"

/-! ## Lemmas about the JS object model -/

theorem objGet_replaceKey_self (o : JObj) (k : String) (v : JValue)
    (h : o.any (fun p => p.1 == k) = true) :
    objGet (replaceKey o k v) k = some v := by
  induction o with
  | nil => simp at h
  | cons p rest ih =>
    by_cases hp : p.1 == k
    · simp [replaceKey, objGet, List.find?, hp]
    · simp only [List.any_cons, hp, Bool.false_or] at h
      simpa [replaceKey, objGet, List.find?, hp] using ih h

theorem objGet_replaceKey_ne (o : JObj) (k k' : String) (v : JValue)
    (h : k' ≠ k) : objGet (replaceKey o k v) k' = objGet o k' := by
  induction o with
  | nil => rfl
  | cons p rest ih =>
    by_cases hp : p.1 == k
    · have hk : (k == k') = false := by
        simp only [beq_eq_false_iff_ne, ne_eq]
        exact fun hkk => h hkk.symm
      have hp' : (p.1 == k') = false := by
        have : p.1 = k := by simpa using hp
        simp only [beq_eq_false_iff_ne, ne_eq, this]
        exact fun hkk => h hkk.symm
      simpa [replaceKey, objGet, List.find?, hp, hk, hp'] using ih
    · simp only [replaceKey, hp, if_false]
      by_cases hq : p.1 == k'
      · simp [objGet, List.find?, hq]
      · simpa [objGet, List.find?, hq] using ih

theorem objGet_append_single (o : JObj) (k k' : String) (v : JValue) :
    objGet (o ++ [(k, v)]) k' =
      orDefault (objGet o k') (if k == k' then some v else none) := by
  induction o with
  | nil =>
    by_cases hk : k == k'
    · simp [objGet, List.find?, hk, orDefault]
    · simp [objGet, List.find?, hk, orDefault]
  | cons p rest ih =>
    by_cases hp : p.1 == k'
    · simp [objGet, List.find?, hp, orDefault]
    · simpa [objGet, List.find?, hp] using ih

theorem objGet_setField_self (o : JObj) (k : String) (v : JValue) :
    objGet (setField o k v) k = some v := by
  unfold setField
  by_cases h : o.any (fun p => p.1 == k)
  · simpa [h] using objGet_replaceKey_self o k v h
  · have hfind : List.find? (fun p => p.1 == k) o = none := by
      rw [List.find?_eq_none]
      intro p hp
      simp only [List.any_eq_true, not_exists, not_and] at h
      simpa using h p hp
    have hnone : objGet o k = none := by simp [objGet, hfind]
    simp [h, objGet_append_single, hnone, orDefault]

theorem objGet_setField_ne (o : JObj) (k k' : String) (v : JValue)
    (h : k' ≠ k) : objGet (setField o k v) k' = objGet o k' := by
  unfold setField
  by_cases ha : o.any (fun p => p.1 == k)
  · simpa [ha] using objGet_replaceKey_ne o k k' v h
  · have hk : (k == k') = false := by
      simp only [beq_eq_false_iff_ne, ne_eq]
      exact fun hkk => h hkk.symm
    rw [if_neg ha, objGet_append_single o k k' v, hk]
    cases objGet o k' <;> simp [orDefault]

theorem objGet_spreadObj (base src : JObj) (k : String) :
    objGet (spreadObj base src) k =
      orDefault (lastVal src k) (objGet base k) := by
  induction src generalizing base with
  | nil => simp [spreadObj, lastVal, orDefault]
  | cons p rest ih =>
    have hstep : spreadObj base (p :: rest) =
        spreadObj (setField base p.1 p.2) rest := rfl
    have hlast : lastVal (p :: rest) k =
        orDefault (lastVal rest k)
          (if p.1 == k then some p.2 else none) := by
      simp only [lastVal, List.reverse_cons, List.find?_append]
      cases hfind : (rest.reverse.find? (fun q => q.1 == k)) with
      | some q => simp [hfind, orDefault, Option.orElse]
      | none =>
        by_cases hp : p.1 == k
        · simp [hfind, hp, orDefault, Option.orElse, List.find?]
        · simp [hfind, hp, orDefault, Option.orElse, List.find?]
    rw [hstep, ih, hlast]
    cases hl : lastVal rest k with
    | some v => simp [orDefault]
    | none =>
      by_cases hp : p.1 == k
      · have hpk : p.1 = k := by simpa using hp
        simp [orDefault, hp, ← hpk, objGet_setField_self]
      · have hpk : k ≠ p.1 := fun hkk => hp (by simp [hkk])
        simp [orDefault, hp, objGet_setField_ne base p.1 k p.2 hpk]

theorem orDefault_none (a : Option JValue) : orDefault a none = a := by
  cases a <;> rfl

/-! ## Lemmas about the response bodies -/

theorem swapAvailable_static (parsed : JObj) :
    objGet (phase2Response parsed) "swapAvailable" = some (JValue.bool true) := by
  unfold phase2Response
  rw [objGet_setField_ne _ _ _ _ (by decide), objGet_setField_self]

theorem swapLimit_static (parsed : JObj) :
    objGet (phase2Response parsed) "swapLimit" = some (JValue.num 3) := by
  unfold phase2Response
  rw [objGet_setField_self]

theorem totalQuestions_static (parsed : JObj) :
    objGet (phase3Response parsed) "totalQuestions" = some (JValue.num 5) := by
  unfold phase3Response
  rw [objGet_setField_self]

theorem team_passthrough (parsed : JObj) :
    objGet (phase2Response parsed) "team" = lastVal parsed "team" := by
  unfold phase2Response
  rw [objGet_setField_ne _ _ _ _ (by decide),
    objGet_setField_ne _ _ _ _ (by decide), objGet_spreadObj,
    show objGet [("phase", JValue.num 2)] "team" = none from rfl,
    orDefault_none]

/-! ## Lemmas about the directory parse -/

theorem foldl_ingestLine (lines : List String) (acc : List Expert) :
    lines.foldl ingestLine acc =
      acc ++ lines.filterMap
        (fun line =>
          if jsTrim line ≠ "" ∧ retained (parseLine line)
          then some (parseLine line) else none) := by
  induction lines generalizing acc with
  | nil => simp
  | cons l rest ih =>
    simp only [List.foldl_cons, List.filterMap_cons]
    by_cases hb : jsTrim l = ""
    · simp [ingestLine, hb, ih]
    · by_cases hr : retained (parseLine l)
      · simp [ingestLine, hb, hr, ih]
      · simp [ingestLine, hb, hr, ih]

theorem mem_parseCSV_iff (csv : String) (e : Expert) :
    e ∈ parseCSV csv ↔
      ∃ line ∈ (jsSplit csv '\n').drop 1,
        jsTrim line ≠ "" ∧ parseLine line = e ∧
        e.firstName ≠ "" ∧ e.status = 0 := by
  unfold parseCSV
  rw [foldl_ingestLine]
  simp only [List.nil_append, List.mem_filterMap]
  constructor
  · rintro ⟨l, hl, hf⟩
    by_cases hc : jsTrim l ≠ "" ∧ retained (parseLine l)
    · rw [if_pos hc] at hf
      obtain rfl : parseLine l = e := by injection hf
      exact ⟨l, hl, hc.1, rfl, hc.2.1, hc.2.2⟩
    · rw [if_neg hc] at hf
      cases hf
  · rintro ⟨l, hl, hb, heq, h1, h0⟩
    refine ⟨l, hl, ?_⟩
    have hr : retained (parseLine l) := by
      rw [heq]; exact ⟨h1, h0⟩
    rw [if_pos ⟨hb, hr⟩, heq]

theorem parseCSV_status_zero (csv : String) (e : Expert)
    (h : e ∈ parseCSV csv) : e.status = 0 := by
  obtain ⟨l, _, _, _, _, h0⟩ := (mem_parseCSV_iff csv e).mp h
  exact h0

theorem reachable_status_zero (st : CacheState) (h : Reachable st) :
    ∀ e ∈ st.expertDatabase, e.status = 0 := by
  induction h with
  | init => intro e he; simp at he
  | step st now resp _ ih =>
    intro e he
    unfold fetchExpertDatabase at he
    by_cases hc : st.expertDatabase ≠ [] ∧
        now - st.lastFetchTime < CACHE_DURATION
    · rw [if_pos hc] at he
      exact ih e he
    · rw [if_neg hc] at he
      cases resp with
      | none => exact ih e he
      | some v =>
        cases v with
        | str s => exact parseCSV_status_zero s e he
        | null => exact ih e he
        | bool b => exact ih e he
        | num n => exact ih e he
        | arr xs => exact ih e he
        | obj fs => exact ih e he

/-! ## The claims -/

/-- C1: a row of the CSV input is retained in the in-memory expert
directory iff it is a non-blank data line whose first-name column (index
1) is non-empty after trimming and whose status column (index 7) parses to
the integer 0 under `parseInt(..) || 0` (so a non-numeric or absent status
defaults to 0 and is retained); consequently every record in any reachable
directory state has status 0. -/
theorem C1_directory_retention :
    (∀ (csv : String) (e : Expert),
      e ∈ parseCSV csv ↔
        ∃ line ∈ (jsSplit csv '\n').drop 1,
          jsTrim line ≠ "" ∧ parseLine line = e ∧
          e.firstName ≠ "" ∧ e.status = 0) ∧
    (∀ st : CacheState, Reachable st → ∀ e ∈ st.expertDatabase,
      e.status = 0) :=
  ⟨mem_parseCSV_iff, reachable_status_zero⟩

/-- Witness for C1 on the worked example of the specification: the
Jane Doe row is retained, and the state holding exactly that record is
reachable with every member at status 0. -/
theorem C1_directory_retention_witness :
    janeDoe ∈ parseCSV csvEx ∧ janeDoe.status = 0 := by
  have hreach : Reachable ⟨[janeDoe], 1000⟩ := by
    have h := Reachable.step ⟨[], 0⟩ 1000 (some (JValue.str csvEx))
      Reachable.init
    have heq :
        (fetchExpertDatabase ⟨[], 0⟩ 1000 (some (JValue.str csvEx))).state =
          ⟨[janeDoe], 1000⟩ := by decide
    rwa [heq] at h
  refine ⟨(C1_directory_retention.1 csvEx janeDoe).mpr
    ⟨"Doe,Jane,10,Ethics,,Moral philosopher,,0,F,EU,Yes",
      by decide, by decide, by decide, by decide, by decide⟩, ?_⟩
  exact C1_directory_retention.2 ⟨[janeDoe], 1000⟩ hreach janeDoe
    (by decide)

/-- C2: when a prior directory snapshot exists (the cached sequence is
non-empty — an empty cache is indistinguishable from the initial state, so
a snapshot exists exactly when the cache holds records) and its age is
below the 5-minute staleness window, `fetchExpertDatabase` performs no
network fetch and returns the cached sequence unchanged with the cache
state unmodified, whatever the network would have answered. -/
theorem C2_fresh_cache_no_fetch (st : CacheState) (now : Nat)
    (resp : Option JValue) (h1 : st.expertDatabase ≠ [])
    (h2 : now - st.lastFetchTime < CACHE_DURATION) :
    fetchExpertDatabase st now resp = ⟨st, st.expertDatabase, 0⟩ := by
  unfold fetchExpertDatabase
  rw [if_pos ⟨h1, h2⟩]

/-- Witness for C2: a one-record cache refreshed at time 1000, read again
at time 2000, is served unchanged with zero fetches. -/
theorem C2_fresh_cache_no_fetch_witness :
    fetchExpertDatabase ⟨[janeDoe], 1000⟩ 2000 none =
      ⟨⟨[janeDoe], 1000⟩, [janeDoe], 0⟩ :=
  C2_fresh_cache_no_fetch ⟨[janeDoe], 1000⟩ 2000 none (by decide) (by decide)

/-- C3 as stated is false: the server never inspects the team field, so a
model output whose team is the empty array produces a success response
whose team has 0 entries, not 9. -/
theorem C3_counterexample :
    ¬ ∀ parsed : JObj, ∃ xs : List JValue,
        objGet (phase2Response parsed) "team" = some (JValue.arr xs) ∧
        xs.length = 9 := by
  intro h
  obtain ⟨xs, hx, hlen⟩ := h [("team", JValue.arr [])]
  rw [show objGet (phase2Response [("team", JValue.arr [])]) "team" =
      some (JValue.arr []) from rfl] at hx
  injection hx with hx
  injection hx with hx
  rw [← hx] at hlen
  simp at hlen

/-- C3 amended: every successful phase 2 response carries the static
fields swapAvailable true and swapLimit 3 regardless of the model output,
while the team field is passed through from the model output unchanged —
the server does not enforce the 9-entry count. -/
theorem C3_phase2_static_fields (parsed : JObj) :
    objGet (phase2Response parsed) "swapAvailable" = some (JValue.bool true) ∧
    objGet (phase2Response parsed) "swapLimit" = some (JValue.num 3) ∧
    objGet (phase2Response parsed) "team" = lastVal parsed "team" :=
  ⟨swapAvailable_static parsed, swapLimit_static parsed,
    team_passthrough parsed⟩

/-- C4: on any failing fetch attempt — a transport error (`none`) or a
non-string body on which the parse throws — `fetchExpertDatabase` returns
the previous cached sequence and leaves the cache contents and the
last-refresh timestamp unchanged; in particular a failure never empties a
non-empty cache, and no error escapes to the caller (the function returns
a value on every input). -/
theorem C4_failed_fetch_preserves_cache (st : CacheState) (now : Nat)
    (resp : Option JValue) (h : isFetchFailure resp = true) :
    (fetchExpertDatabase st now resp).state = st ∧
    (fetchExpertDatabase st now resp).result = st.expertDatabase := by
  unfold fetchExpertDatabase
  by_cases hc : st.expertDatabase ≠ [] ∧
      now - st.lastFetchTime < CACHE_DURATION
  · rw [if_pos hc]
    exact ⟨rfl, rfl⟩
  · rw [if_neg hc]
    cases resp with
    | none => exact ⟨rfl, rfl⟩
    | some v =>
      cases v with
      | str s => simp [isFetchFailure] at h
      | null => exact ⟨rfl, rfl⟩
      | bool b => exact ⟨rfl, rfl⟩
      | num n => exact ⟨rfl, rfl⟩
      | arr xs => exact ⟨rfl, rfl⟩
      | obj fs => exact ⟨rfl, rfl⟩

/-- Witness for C4: a stale one-record cache survives a transport error
untouched and is returned to the caller. -/
theorem C4_failed_fetch_preserves_cache_witness :
    (fetchExpertDatabase ⟨[janeDoe], 0⟩ 900000 none).state =
      ⟨[janeDoe], 0⟩ ∧
    (fetchExpertDatabase ⟨[janeDoe], 0⟩ 900000 none).result = [janeDoe] :=
  C4_failed_fetch_preserves_cache ⟨[janeDoe], 0⟩ 900000 none rfl

/-- C5: every successful phase 3 response carries totalQuestions 5,
whatever questionNumber or totalQuestions the parsed model output holds —
the field is assigned after the spread of the model output. -/
theorem C5_totalQuestions_static (parsed : JObj) :
    objGet (phase3Response parsed) "totalQuestions" = some (JValue.num 5) :=
  totalQuestions_static parsed

/-- C6: a phase 1 request whose challenge is missing or empty yields HTTP
400 with body error-message Challenge required, and the model gateway is
not called (zero `callClaude` attempts), whatever the gateway would have
answered. -/
theorem C6_phase1_challenge_required (model : Except String JObj) :
    phase1Handler none model =
      ⟨400, [("error", JValue.str "Challenge required")], 0, 0, 0⟩ ∧
    phase1Handler (some "") model =
      ⟨400, [("error", JValue.str "Challenge required")], 0, 0, 0⟩ :=
  ⟨rfl, rfl⟩

/-- C7: a phase 2 request omitting challengeType yields HTTP 400 with no
directory read (zero `fetchExpertDatabase` calls, zero CSV fetches), no
model gateway call, and an unchanged cache state, for every challenge
value and every environment. -/
theorem C7_phase2_requires_challengeType (challenge : Option String)
    (st : CacheState) (now : Nat) (resp : Option JValue)
    (model : Except String JObj) :
    (phase2Handler challenge none st now resp model).1.status = 400 ∧
    (phase2Handler challenge none st now resp model).1.dirReads = 0 ∧
    (phase2Handler challenge none st now resp model).1.dirFetches = 0 ∧
    (phase2Handler challenge none st now resp model).1.modelCalls = 0 ∧
    (phase2Handler challenge none st now resp model).2 = st := by
  have h : (jsStrFalsy challenge || jsStrFalsy none) = true := by
    simp [jsStrFalsy]
  unfold phase2Handler
  rw [if_pos h]
  exact ⟨rfl, rfl, rfl, rfl, rfl⟩

/-- C8: within any single request, each remote call is attempted at most
once: every handler performs at most one model gateway attempt, phase 2
performs at most one directory read containing at most one CSV network
fetch, and `fetchExpertDatabase` itself never fetches more than once. -/
theorem C8_no_retries :
    (∀ (c : Option String) (m : Except String JObj),
      (phase1Handler c m).modelCalls ≤ 1) ∧
    (∀ (c ct : Option String) (st : CacheState) (now : Nat)
        (resp : Option JValue) (m : Except String JObj),
      (phase2Handler c ct st now resp m).1.modelCalls ≤ 1 ∧
      (phase2Handler c ct st now resp m).1.dirReads ≤ 1 ∧
      (phase2Handler c ct st now resp m).1.dirFetches ≤ 1) ∧
    (∀ (c : Option String) (t : Option (List JObj))
        (m : Except String JObj),
      (phase3Handler c t m).modelCalls ≤ 1) ∧
    (∀ (st : CacheState) (now : Nat) (resp : Option JValue),
      (fetchExpertDatabase st now resp).fetches ≤ 1) := by
  have hfetch : ∀ (st : CacheState) (now : Nat) (resp : Option JValue),
      (fetchExpertDatabase st now resp).fetches ≤ 1 := by
    intro st now resp
    unfold fetchExpertDatabase
    by_cases hc : st.expertDatabase ≠ [] ∧
        now - st.lastFetchTime < CACHE_DURATION
    · rw [if_pos hc]
      exact Nat.zero_le 1
    · rw [if_neg hc]
      cases resp with
      | none => exact le_refl 1
      | some v => cases v <;> simp
  refine ⟨?_, ?_, ?_, hfetch⟩
  · intro c m
    unfold phase1Handler
    cases hc : jsStrFalsy c
    · cases m <;> simp
    · simp
  · intro c ct st now resp m
    unfold phase2Handler
    cases hc : (jsStrFalsy c || jsStrFalsy ct)
    · cases m <;> simp <;> exact hfetch st now resp
    · simp
  · intro c t m
    unfold phase3Handler
    cases hc : (jsStrFalsy c || t.isNone)
    · cases m <;> simp
    · simp

/-- C9: the parsed model output is spread after the phase field, so an
output with a top-level phase key overrides the documented constant in
each phase response (shown at the concrete value 42); the trailing fields
swapAvailable, swapLimit and totalQuestions are assigned after the spread
and cannot be overridden by any model output. -/
theorem C9_phase_key_override :
    objGet (phase1Response [("phase", JValue.num 42)]) "phase" =
      some (JValue.num 42) ∧
    objGet (phase2Response [("phase", JValue.num 42)]) "phase" =
      some (JValue.num 42) ∧
    objGet (phase3Response [("phase", JValue.num 42)]) "phase" =
      some (JValue.num 42) ∧
    (∀ parsed : JObj,
      objGet (phase2Response parsed) "swapAvailable" =
        some (JValue.bool true)) ∧
    (∀ parsed : JObj,
      objGet (phase2Response parsed) "swapLimit" = some (JValue.num 3)) ∧
    (∀ parsed : JObj,
      objGet (phase3Response parsed) "totalQuestions" =
        some (JValue.num 5)) :=
  ⟨rfl, rfl, rfl, swapAvailable_static, swapLimit_static,
    totalQuestions_static⟩

/-- C10: a phase 3 request whose team field is a present but empty array
is not rejected: the truthiness check accepts it, the request proceeds to
exactly one model gateway call, and the team-name list rendered into the
prompt is the empty string; a missing team (with the same truthy
challenge) does trigger the 400 response. -/
theorem C10_empty_team_not_rejected (challenge : Option String)
    (model : Except String JObj) (h : jsStrFalsy challenge = false) :
    (phase3Handler challenge (some []) model).status ≠ 400 ∧
    (phase3Handler challenge (some []) model).modelCalls = 1 ∧
    phase3TeamNames [] = "" ∧
    (phase3Handler challenge none model).status = 400 := by
  have hc : (jsStrFalsy challenge ||
      (Option.isNone (some ([] : List JObj)))) = true → False := by
    simp [h]
  have hn : (jsStrFalsy challenge ||
      (Option.isNone (none : Option (List JObj)))) = true := by
    simp
  refine ⟨?_, ?_, rfl, ?_⟩
  · unfold phase3Handler
    rw [if_neg hc]
    cases model <;> simp
  · unfold phase3Handler
    rw [if_neg hc]
    cases model <;> rfl
  · unfold phase3Handler
    rw [if_pos hn]

/-- Witness for C10: with a non-empty challenge and an empty team array
the request reaches the gateway exactly once and is not a 400, while the
same request without a team is a 400. -/
theorem C10_empty_team_not_rejected_witness :
    jsStrFalsy (some "c") = false ∧
    (phase3Handler (some "c") (some []) (Except.ok [])).status ≠ 400 ∧
    (phase3Handler (some "c") (some []) (Except.ok [])).modelCalls = 1 ∧
    phase3TeamNames [] = "" ∧
    (phase3Handler (some "c") none (Except.ok [])).status = 400 :=
  ⟨rfl, C10_empty_team_not_rejected (some "c") (Except.ok []) rfl⟩

end Perspectivology
